import Mathlib

/-!
Shallow embedding of `src/obd/OBDCommand.py` (python-OBD's `OBDCommand` class).

Python bytes values are modelled as `List Nat` (data payloads) or `List Char`
(the command string, whose characters are what the hex parse inspects).
In-place mutation of the caller's message batch is modelled by store passing:
evaluation returns, alongside its result, the batch as left by the call
(mutated on success, or as it stood when a strict-mode validation error
aborted the call).
-/

/-- A bus response message (external entity): an `ecu` tag bitmask and a raw
data byte sequence. -/
structure Message where
  ecu : Nat
  data : List Nat
deriving DecidableEq, Repr

/-- Modelled from the spec: the `OBDError` validation failures raised by
strict mode (the class itself is imported from `.utils`, which is not under
src/). Each carries the descriptor identity rendering and the numbers
interpolated into the Python format string. -/
inductive OBDError where
  | frameCountMismatch (ident : String) (expected actual : Nat)
  | payloadTooLong (ident : String) (actual expected : Nat)
  | payloadTooShort (ident : String) (actual expected : Nat)
deriving DecidableEq, Repr

/-- The warning-level diagnostics `logger.warning` emits, modelled as values
so their occurrence and payload are part of the result. -/
inductive Notice where
  | frameCountMismatch (ident : String) (expected actual : Nat)
  | trimmedMessage (ident : String) (data : List Nat)
  | paddedMessage (ident : String) (data : List Nat)
  | noAcceptableMessages (ident : String)
deriving DecidableEq, Repr

/-- The command descriptor, `class OBDCommand`, with the fields set by
`__init__`; `α` is the (externally owned) decoded value type. -/
structure OBDCommand (α : Type) where
  name : String
  desc : String
  command : List Char
  bytes : Nat
  decode : List Message → α
  ecu : Nat
  fast : Bool
  frames : Option Nat
  strict : Bool

/-- Modelled from the spec: `OBDResponse` (imported from `.OBDResponse`, not
under src/) wraps a back-reference to the descriptor, the filtered message
list, and a `value` slot that stays absent when no message was decoded. -/
structure OBDResponse (α : Type) where
  command : OBDCommand α
  messages : List Message
  value : Option α

/-- `OBDCommand.clone`: a new descriptor with the same nine field values. -/
def OBDCommand.clone {α : Type} (self : OBDCommand α) : OBDCommand α :=
  { name := self.name
    desc := self.desc
    command := self.command
    bytes := self.bytes
    decode := self.decode
    ecu := self.ecu
    fast := self.fast
    frames := self.frames
    strict := self.strict }

/-- Modelled from the spec: `isHex` (imported from `.utils`, not under src/)
holds when every character is a hexadecimal digit, i.e. the string is valid
hexadecimal text. -/
def isHex (s : List Char) : Bool :=
  s.all fun c => c.isDigit || ('a' ≤ c && c ≤ 'f') || ('A' ≤ c && c ≤ 'F')

/-- Numeric value of one hexadecimal digit character. -/
def hexDigitVal (c : Char) : Nat :=
  if c.isDigit then c.toNat - 48
  else if 'a' ≤ c && c ≤ 'f' then c.toNat - 87
  else if 'A' ≤ c && c ≤ 'F' then c.toNat - 55
  else 0

/-- Base-16 integer value of a hex-digit string, as Python's `int(s, 16)`
computes it on a string that passes `isHex`. -/
def hexVal (s : List Char) : Nat :=
  s.foldl (fun a c => 16 * a + hexDigitVal c) 0

/-- `OBDCommand.mode` property: `int(command[:2], 16)` when the command
string decodes to valid hex text of length at least 2, else `None`. -/
def OBDCommand.mode {α : Type} (self : OBDCommand α) : Option Nat :=
  if 2 ≤ self.command.length ∧ isHex self.command = true then
    some (hexVal (self.command.take 2))
  else
    none

/-- `OBDCommand.pid` property: `int(command[2:], 16)` when the command string
decodes to valid hex text of length greater than 2, else `None`. -/
def OBDCommand.pid {α : Type} (self : OBDCommand α) : Option Nat :=
  if 2 < self.command.length ∧ isHex self.command = true then
    some (hexVal (self.command.drop 2))
  else
    none

/-- `OBDCommand.__str__`: the descriptor identity rendering interpolated into
every error and warning. -/
def OBDCommand.str {α : Type} (self : OBDCommand α) : String :=
  String.mk self.command ++ ": " ++ self.desc

/-- The attribution predicate `for_us` from `__call__`:
`(self.ecu & m.ecu) > 0`. -/
def OBDCommand.forUs {α : Type} (self : OBDCommand α) (m : Message) : Bool :=
  self.ecu &&& m.ecu > 0

/-- `OBDCommand.__constrain_message_data`: pads or chops the data field to
`self.bytes` (when positive), raising instead of mutating in strict mode.
Returns the (possibly resized) message and the warnings logged. -/
def OBDCommand.constrainMessageData {α : Type} (self : OBDCommand α)
    (message : Message) : Except OBDError (Message × List Notice) :=
  if self.bytes > 0 then
    if message.data.length > self.bytes then
      if self.strict then
        .error (.payloadTooLong self.str message.data.length self.bytes)
      else
        let newData := message.data.take self.bytes
        .ok ({ message with data := newData }, [.trimmedMessage self.str newData])
    else if message.data.length < self.bytes then
      if self.strict then
        .error (.payloadTooShort self.str message.data.length self.bytes)
      else
        let newData := message.data ++ List.replicate (self.bytes - message.data.length) 0
        .ok ({ message with data := newData }, [.paddedMessage self.str newData])
    else
      .ok (message, [])
  else
    .ok (message, [])

/-- The loop `for m in messages: self.__constrain_message_data(m)` from
`__call__`. The Python loop runs over the filtered list, whose elements alias
the caller's batch; here it walks the whole batch, constraining exactly the
retained (`forUs`) messages and leaving the rest untouched. On a strict-mode
error it returns the batch as it stood at the abort. -/
def OBDCommand.constrainBatch {α : Type} (self : OBDCommand α) :
    List Message → Except (OBDError × List Message) (List Message × List Notice)
  | [] => .ok ([], [])
  | m :: rest =>
    if self.forUs m then
      match self.constrainMessageData m with
      | .error e => .error (e, m :: rest)
      | .ok (m2, ns) =>
        match self.constrainBatch rest with
        | .error (e, rest2) => .error (e, m2 :: rest2)
        | .ok (rest2, ns2) => .ok (m2 :: rest2, ns ++ ns2)
    else
      match self.constrainBatch rest with
      | .error (e, rest2) => .error (e, m :: rest2)
      | .ok (rest2, ns2) => .ok (m :: rest2, ns2)

/-- `OBDCommand.__call__` (Evaluate): filter by ECU attribution, check the
expected frame count, normalize payload sizes, then build the response and
decode. Returns either the validation error together with the caller's batch
as left at the abort, or the response, the mutated batch, and the warning
notices in emission order. -/
def OBDCommand.call {α : Type} (self : OBDCommand α) (batch : List Message) :
    Except (OBDError × List Message) (OBDResponse α × List Message × List Notice) :=
  let messages := batch.filter self.forUs
  let frameCheck : Except OBDError (List Notice) :=
    match self.frames with
    | some f =>
      if f ≠ messages.length then
        if self.strict then
          .error (.frameCountMismatch self.str f messages.length)
        else
          .ok [.frameCountMismatch self.str f messages.length]
      else
        .ok []
    | none => .ok []
  match frameCheck with
  | .error e => .error (e, batch)
  | .ok ns0 =>
    match self.constrainBatch batch with
    | .error (e, batch2) => .error (e, batch2)
    | .ok (batch2, ns1) =>
      let messages2 := batch2.filter self.forUs
      if messages2.isEmpty then
        .ok ({ command := self, messages := messages2, value := none },
             batch2, ns0 ++ ns1 ++ [.noAcceptableMessages self.str])
      else
        .ok ({ command := self, messages := messages2,
               value := some (self.decode messages2) },
             batch2, ns0 ++ ns1)

/-- A Python value an `OBDCommand` may be compared against with `==`: either
another descriptor or some non-descriptor object. -/
inductive PyValue (α : Type) where
  | obdCommand (c : OBDCommand α)
  | other (tag : Nat)

/-- `OBDCommand.__eq__`: equal command strings when the other operand is a
descriptor, `False` against anything else. -/
def OBDCommand.eqPy {α : Type} (self : OBDCommand α) : PyValue α → Bool
  | .obdCommand o => self.command == o.command
  | .other _ => false

/-- `OBDCommand.__hash__`: `hash(self.command)` — a deterministic function of
the command string alone (the concrete mixing stands in for CPython's bytes
hash). -/
def OBDCommand.hashPy {α : Type} (self : OBDCommand α) : UInt64 :=
  self.command.foldl (fun a c => mixHash a (hash c)) 7

/-- The lenient-mode payload normalization: truncate from the right to `n`
bytes when longer, right-pad with zero bytes when shorter, unchanged when the
length is exactly `n`. Used to state what `constrainMessageData` computes. -/
def normData (n : Nat) (d : List Nat) : List Nat :=
  if d.length > n then d.take n
  else if d.length < n then d ++ List.replicate (n - d.length) 0
  else d

/-- The per-message effect of a lenient evaluation pass on the whole batch:
retained messages get their data normalized, the rest are untouched. -/
def OBDCommand.normMsg {α : Type} (self : OBDCommand α) (m : Message) : Message :=
  if self.forUs m then
    { m with data := if self.bytes = 0 then m.data else normData self.bytes m.data }
  else m


/-- A sample descriptor (mode 01, PID 0C) used to evaluate the theorems on
concrete inputs. -/
def sampleCmd : OBDCommand Nat :=
  { name := "RPM"
    desc := "Engine RPM"
    command := ['0', '1', '0', 'C']
    bytes := 4
    decode := fun ms => (ms.headD ⟨0, []⟩).data.length
    ecu := 1
    fast := false
    frames := some 1
    strict := false }

/-- Strict variant of the sample descriptor. -/
def c1Cmd : OBDCommand Nat :=
  { sampleCmd with strict := true }

/-- One message attributed to ECU 2, so the ECU-1 sample descriptors filter
it out. -/
def c1Batch : List Message :=
  [⟨2, [65, 12, 175]⟩]

/-- Strict descriptor expecting 3 frames and 4 data bytes. -/
def c3Cmd : OBDCommand Nat :=
  { sampleCmd with strict := true, frames := some 3 }

/-- One retained message with only 2 data bytes. -/
def c3Batch : List Message :=
  [⟨1, [65, 12]⟩]

/-- Strict descriptor with 4 expected bytes and no frame expectation. -/
def c3wCmd : OBDCommand Nat :=
  { sampleCmd with strict := true, frames := none }

/-- Lenient descriptor whose decode function returns 42 on every batch. -/
def c4Cmd : OBDCommand Nat :=
  { sampleCmd with decode := fun _ => 42 }

/-- One message the ECU-1 descriptor filters out. -/
def c4Batch : List Message :=
  [⟨2, [65]⟩]

/-- Lenient descriptor expecting 2 frames. -/
def c4wCmd : OBDCommand Nat :=
  { sampleCmd with frames := some 2 }

/-- One retained message with exactly 4 data bytes. -/
def c4wBatch : List Message :=
  [⟨1, [1, 2, 3, 4]⟩]

/-- Strict descriptor with 2 expected bytes and no frame expectation. -/
def c10Cmd : OBDCommand Nat :=
  { sampleCmd with strict := true, bytes := 2, frames := none }

/-- One retained message with 3 data bytes, one byte too many for `c10Cmd`. -/
def c10Batch : List Message :=
  [⟨1, [1, 2, 3]⟩]

/-- Descriptor with ECU mask 3, no frame expectation, no byte constraint. -/
def c5wCmd : OBDCommand Nat :=
  { sampleCmd with ecu := 3, frames := none, bytes := 0 }

/-- Messages from ECUs 1, 4 and 2: the mask-3 descriptor retains the first
and third. -/
def c5wBatch : List Message :=
  [⟨1, [10]⟩, ⟨4, [20]⟩, ⟨2, [30]⟩]

/-- A descriptor with the same command string as `sampleCmd` but different
name, description, byte count and decode function. -/
def c7Other : OBDCommand Nat :=
  { name := "OTHER"
    desc := "Different description"
    command := ['0', '1', '0', 'C']
    bytes := 2
    decode := fun _ => 999
    ecu := 64
    fast := true
    frames := none
    strict := true }
theorem forUs_normMsg {α : Type} (self : OBDCommand α) (m : Message) :
    self.forUs (self.normMsg m) = self.forUs m := by
  unfold OBDCommand.normMsg
  split
  · simp [OBDCommand.forUs]
  · rfl


theorem constrainMessageData_lenient {α : Type} (self : OBDCommand α) (m : Message)
    (h : self.strict = false) :
    ∃ ns, self.constrainMessageData m =
      .ok ({ m with data := if self.bytes = 0 then m.data else normData self.bytes m.data }, ns) := by
  by_cases hb : self.bytes = 0
  · exact ⟨[], by simp [OBDCommand.constrainMessageData, hb]⟩
  · have hb' : self.bytes > 0 := Nat.pos_of_ne_zero hb
    by_cases hlong : m.data.length > self.bytes
    · exact ⟨[.trimmedMessage self.str (m.data.take self.bytes)],
        by simp [OBDCommand.constrainMessageData, hb', hlong, h, normData, hb]⟩
    · by_cases hshort : m.data.length < self.bytes
      · exact ⟨[.paddedMessage self.str
            (m.data ++ List.replicate (self.bytes - m.data.length) 0)],
          by simp [OBDCommand.constrainMessageData, hb', hlong, hshort, h, normData, hb]⟩
      · have heq : m.data.length = self.bytes :=
          Nat.le_antisymm (Nat.not_lt.mp hlong) (Nat.not_lt.mp hshort)
        exact ⟨[], by simp [OBDCommand.constrainMessageData, hb', hlong, hshort, normData, hb, heq]⟩

theorem constrainMessageData_error_strict {α : Type} (self : OBDCommand α)
    (m : Message) (e : OBDError) (h : self.constrainMessageData m = .error e) :
    self.strict = true := by
  by_contra hs
  have hs' : self.strict = false := Bool.eq_false_iff.mpr hs
  obtain ⟨ns, hok⟩ := constrainMessageData_lenient self m hs'
  rw [hok] at h
  exact Except.noConfusion h

theorem constrainMessageData_strict_ok {α : Type} (self : OBDCommand α)
    (m m2 : Message) (ns : List Notice) (hs : self.strict = true)
    (h : self.constrainMessageData m = .ok (m2, ns)) : m2 = m ∧ ns = [] := by
  unfold OBDCommand.constrainMessageData at h
  rw [hs] at h
  split at h
  · split at h
    · simp at h
    · split at h
      · simp at h
      · simp at h
        exact ⟨h.1.symm, h.2⟩
  · simp at h
    exact ⟨h.1.symm, h.2⟩

theorem constrainMessageData_ecu {α : Type} (self : OBDCommand α)
    (m m2 : Message) (ns : List Notice)
    (h : self.constrainMessageData m = .ok (m2, ns)) : m2.ecu = m.ecu := by
  unfold OBDCommand.constrainMessageData at h
  split at h
  · split at h
    · split at h
      · exact Except.noConfusion h
      · simp at h
        rw [← h.1]
    · split at h
      · split at h
        · exact Except.noConfusion h
        · simp at h
          rw [← h.1]
      · simp at h
        rw [← h.1]
  · simp at h
    rw [← h.1]

theorem constrainMessageData_bytes_zero {α : Type} (self : OBDCommand α)
    (m : Message) (hb : self.bytes = 0) :
    self.constrainMessageData m = .ok (m, []) := by
  simp [OBDCommand.constrainMessageData, hb]

theorem constrainBatch_error {α : Type} (self : OBDCommand α) (l l2 : List Message)
    (e : OBDError) (h : self.constrainBatch l = .error (e, l2)) :
    self.strict = true ∧ l2 = l := by
  induction l generalizing l2 with
  | nil => simp [OBDCommand.constrainBatch] at h
  | cons m rest ih =>
    unfold OBDCommand.constrainBatch at h
    split at h
    · cases hm : self.constrainMessageData m with
      | error e' =>
        rw [hm] at h
        simp at h
        exact ⟨constrainMessageData_error_strict self m e' hm, h.2.symm⟩
      | ok p =>
        obtain ⟨m2, ns⟩ := p
        rw [hm] at h
        cases hr : self.constrainBatch rest with
        | error q =>
          obtain ⟨e2, rest2⟩ := q
          rw [hr] at h
          simp at h
          rw [h.1] at hr
          obtain ⟨hs, hrest⟩ := ih rest2 hr
          obtain ⟨hm2, -⟩ := constrainMessageData_strict_ok self m m2 ns hs hm
          exact ⟨hs, by rw [← h.2, hm2, hrest]⟩
        | ok q =>
          obtain ⟨rest2, ns2⟩ := q
          rw [hr] at h
          simp at h
    · cases hr : self.constrainBatch rest with
      | error q =>
        obtain ⟨e2, rest2⟩ := q
        rw [hr] at h
        simp at h
        rw [h.1] at hr
        obtain ⟨hs, hrest⟩ := ih rest2 hr
        exact ⟨hs, by rw [← h.2, hrest]⟩
      | ok q =>
        obtain ⟨rest2, ns2⟩ := q
        rw [hr] at h
        simp at h

theorem constrainBatch_strict_ok {α : Type} (self : OBDCommand α)
    (l l2 : List Message) (ns : List Notice) (hs : self.strict = true)
    (h : self.constrainBatch l = .ok (l2, ns)) : l2 = l ∧ ns = [] := by
  induction l generalizing l2 ns with
  | nil =>
    simp [OBDCommand.constrainBatch] at h
    exact ⟨h.1, h.2⟩
  | cons m rest ih =>
    unfold OBDCommand.constrainBatch at h
    split at h
    · cases hm : self.constrainMessageData m with
      | error e' =>
        rw [hm] at h
        simp at h
      | ok p =>
        obtain ⟨m2, ns1⟩ := p
        rw [hm] at h
        cases hr : self.constrainBatch rest with
        | error q =>
          obtain ⟨e2, rest2⟩ := q
          rw [hr] at h
          simp at h
        | ok q =>
          obtain ⟨rest2, ns2⟩ := q
          rw [hr] at h
          simp at h
          obtain ⟨hm2, hns1⟩ := constrainMessageData_strict_ok self m m2 ns1 hs hm
          obtain ⟨hrest, hns2⟩ := ih rest2 ns2 hr
          constructor
          · rw [← h.1, hm2, hrest]
          · rw [← h.2, hns1, hns2]
            rfl
    · cases hr : self.constrainBatch rest with
      | error q =>
        obtain ⟨e2, rest2⟩ := q
        rw [hr] at h
        simp at h
      | ok q =>
        obtain ⟨rest2, ns2⟩ := q
        rw [hr] at h
        simp at h
        obtain ⟨hrest, hns2⟩ := ih rest2 ns2 hr
        exact ⟨by rw [← h.1, hrest], by rw [← h.2, hns2]⟩

theorem constrainBatch_lenient {α : Type} (self : OBDCommand α)
    (hs : self.strict = false) (l : List Message) :
    ∃ ns, self.constrainBatch l = .ok (l.map self.normMsg, ns) := by
  induction l with
  | nil => exact ⟨[], rfl⟩
  | cons m rest ih =>
    obtain ⟨ns, ihr⟩ := ih
    by_cases hf : self.forUs m = true
    · obtain ⟨ns1, hm⟩ := constrainMessageData_lenient self m hs
      refine ⟨ns1 ++ ns, ?_⟩
      unfold OBDCommand.constrainBatch
      rw [if_pos hf, hm, ihr]
      have : self.normMsg m =
          { m with data := if self.bytes = 0 then m.data else normData self.bytes m.data } := by
        unfold OBDCommand.normMsg
        rw [if_pos hf]
      rw [List.map_cons, this]
    · refine ⟨ns, ?_⟩
      unfold OBDCommand.constrainBatch
      rw [if_neg hf, ihr]
      have : self.normMsg m = m := by
        unfold OBDCommand.normMsg
        rw [if_neg hf]
      rw [List.map_cons, this]

theorem constrainBatch_no_retained {α : Type} (self : OBDCommand α)
    (l : List Message) (h : l.filter self.forUs = []) :
    self.constrainBatch l = .ok (l, []) := by
  induction l with
  | nil => rfl
  | cons m rest ih =>
    rw [List.filter_cons] at h
    split at h
    · exact absurd h (List.cons_ne_nil _ _)
    · unfold OBDCommand.constrainBatch
      rw [if_neg (by assumption), ih h]

theorem constrainBatch_bytes_zero {α : Type} (self : OBDCommand α)
    (l : List Message) (hb : self.bytes = 0) :
    self.constrainBatch l = .ok (l, []) := by
  induction l with
  | nil => rfl
  | cons m rest ih =>
    unfold OBDCommand.constrainBatch
    rw [constrainMessageData_bytes_zero self m hb, ih]
    split <;> rfl

theorem filter_map_normMsg {α : Type} (self : OBDCommand α) (l : List Message) :
    (l.map self.normMsg).filter self.forUs = (l.filter self.forUs).map self.normMsg := by
  rw [List.filter_map]
  congr 1
  apply List.filter_congr
  intro m _
  exact forUs_normMsg self m

theorem isEmpty_map {β γ : Type} (f : β → γ) (l : List β) :
    (l.map f).isEmpty = l.isEmpty := by
  cases l <;> rfl

theorem call_lenient {α : Type} (self : OBDCommand α) (batch : List Message)
    (hs : self.strict = false) :
    ∃ ns1,
      self.call batch =
        .ok ({ command := self,
               messages := (batch.filter self.forUs).map self.normMsg,
               value := if (batch.filter self.forUs).isEmpty then none
                        else some (self.decode ((batch.filter self.forUs).map self.normMsg)) },
             batch.map self.normMsg,
             (match self.frames with
              | some f =>
                if f ≠ (batch.filter self.forUs).length then
                  [Notice.frameCountMismatch self.str f (batch.filter self.forUs).length]
                else []
              | none => []) ++ ns1 ++
             (if (batch.filter self.forUs).isEmpty then
                [Notice.noAcceptableMessages self.str] else [])) := by
  obtain ⟨ns1, hcb⟩ := constrainBatch_lenient self hs batch
  refine ⟨ns1, ?_⟩
  unfold OBDCommand.call
  rw [hcb]
  dsimp only
  rw [filter_map_normMsg, isEmpty_map]
  cases hfr : self.frames with
  | none =>
    by_cases hemp : (batch.filter self.forUs).isEmpty
    · simp [hemp]
    · simp [hemp]
  | some f =>
    by_cases hne : f = (batch.filter self.forUs).length
    · by_cases hemp : (batch.filter self.forUs).isEmpty
      · simp [hne, hemp]
      · simp [hne, hemp]
    · by_cases hemp : (batch.filter self.forUs).isEmpty
      · simp [hne, hemp, hs]
      · simp [hne, hemp, hs]

theorem call_strict_frame_error {α : Type} (self : OBDCommand α) (batch : List Message)
    (f : Nat) (hs : self.strict = true) (hf : self.frames = some f)
    (hne : f ≠ (batch.filter self.forUs).length) :
    self.call batch =
      .error (.frameCountMismatch self.str f (batch.filter self.forUs).length, batch) := by
  unfold OBDCommand.call
  rw [hf]
  dsimp only
  rw [if_pos hne, hs]
  rfl

theorem call_frame_pass {α : Type} (self : OBDCommand α) (batch : List Message)
    (hf : self.frames = none ∨ self.frames = some (batch.filter self.forUs).length) :
    self.call batch =
      match self.constrainBatch batch with
      | .error (e, batch2) => .error (e, batch2)
      | .ok (batch2, ns1) =>
        let messages2 := batch2.filter self.forUs
        if messages2.isEmpty then
          .ok ({ command := self, messages := messages2, value := none },
               batch2, ns1 ++ [.noAcceptableMessages self.str])
        else
          .ok ({ command := self, messages := messages2,
                 value := some (self.decode messages2) },
               batch2, ns1) := by
  unfold OBDCommand.call
  rcases hf with hf | hf
  · rw [hf]
    dsimp only
    cases hcb : self.constrainBatch batch with
    | error q => rfl
    | ok q =>
      obtain ⟨batch2, ns1⟩ := q
      dsimp only
      split <;> simp
  · rw [hf]
    dsimp only
    rw [if_neg (by simp)]
    cases hcb : self.constrainBatch batch with
    | error q => rfl
    | ok q =>
      obtain ⟨batch2, ns1⟩ := q
      dsimp only
      split <;> simp

theorem constrainBatch_strict_offender {α : Type} (self : OBDCommand α)
    (hs : self.strict = true) (hb : self.bytes > 0) (l : List Message) (m0 : Message)
    (hfind : (l.filter self.forUs).find? (fun m => m.data.length != self.bytes) = some m0) :
    self.constrainBatch l =
      .error ((if self.bytes < m0.data.length then
                 .payloadTooLong self.str m0.data.length self.bytes
               else
                 .payloadTooShort self.str m0.data.length self.bytes), l) := by
  induction l with
  | nil => simp at hfind
  | cons m rest ih =>
    rw [List.filter_cons] at hfind
    by_cases hfu : self.forUs m = true
    · rw [if_pos hfu] at hfind
      by_cases hoff : (m.data.length != self.bytes) = true
      · rw [@List.find?_cons_of_pos Message (fun x => x.data.length != self.bytes) m
            (List.filter self.forUs rest) hoff] at hfind
        injection hfind with hm0
        subst hm0
        have hne : m.data.length ≠ self.bytes := by
          simpa using hoff
        unfold OBDCommand.constrainBatch
        rw [if_pos hfu]
        by_cases hlong : m.data.length > self.bytes
        · have hcm : self.constrainMessageData m =
              .error (.payloadTooLong self.str m.data.length self.bytes) := by
            unfold OBDCommand.constrainMessageData
            rw [if_pos hb, if_pos hlong, hs]
            rfl
          rw [hcm, if_pos hlong]
        · have hshort : m.data.length < self.bytes :=
            Nat.lt_of_le_of_ne (Nat.not_lt.mp hlong) hne
          have hcm : self.constrainMessageData m =
              .error (.payloadTooShort self.str m.data.length self.bytes) := by
            unfold OBDCommand.constrainMessageData
            rw [if_pos hb, if_neg hlong, if_pos hshort, hs]
            rfl
          rw [hcm, if_neg hlong]
      · rw [@List.find?_cons_of_neg Message (fun x => x.data.length != self.bytes) m
            (List.filter self.forUs rest) hoff] at hfind
        have heq : m.data.length = self.bytes := by
          simpa using hoff
        have hcm : self.constrainMessageData m = .ok (m, []) := by
          unfold OBDCommand.constrainMessageData
          rw [if_pos hb, if_neg (by omega : ¬ m.data.length > self.bytes),
              if_neg (by omega : ¬ m.data.length < self.bytes)]
        unfold OBDCommand.constrainBatch
        rw [if_pos hfu, hcm, ih hfind]
    · rw [if_neg hfu] at hfind
      unfold OBDCommand.constrainBatch
      rw [if_neg hfu, ih hfind]

theorem normData_length (n : Nat) (d : List Nat) :
    (normData n d).length = n := by
  unfold normData
  split
  · rw [List.length_take]
    omega
  · split
    · rw [List.length_append, List.length_replicate]
      omega
    · omega

theorem normMsg_bytes_zero {α : Type} (self : OBDCommand α) (m : Message)
    (hb : self.bytes = 0) : self.normMsg m = m := by
  unfold OBDCommand.normMsg
  rw [hb]
  split <;> rfl

theorem call_error_store {α : Type} (self : OBDCommand α) (batch : List Message)
    (e : OBDError) (s : List Message) (h : self.call batch = .error (e, s)) :
    s = batch ∧ self.strict = true := by
  cases hcb : self.constrainBatch batch with
  | error q =>
    obtain ⟨e2, b2⟩ := q
    obtain ⟨hs, hb2⟩ := constrainBatch_error self batch b2 e2 hcb
    unfold OBDCommand.call at h
    dsimp only at h
    rw [hcb] at h
    dsimp only at h
    split at h
    · simp at h
      exact ⟨h.2.symm, hs⟩
    · simp at h
      rw [h.2] at hb2
      exact ⟨hb2, hs⟩
  | ok q =>
    obtain ⟨b2, ns1⟩ := q
    unfold OBDCommand.call at h
    dsimp only at h
    rw [hcb] at h
    dsimp only at h
    split at h
    · rename_i e' heq
      simp at h
      refine ⟨h.2.symm, ?_⟩
      cases hfr : self.frames with
      | none =>
        rw [hfr] at heq
        exact Except.noConfusion heq
      | some f =>
        rw [hfr] at heq
        dsimp only at heq
        by_cases hne : f = (List.filter self.forUs batch).length
        · rw [if_neg (not_not_intro hne)] at heq
          exact Except.noConfusion heq
        · rw [if_pos hne] at heq
          by_cases hst : self.strict = true
          · exact hst
          · rw [if_neg hst] at heq
            exact Except.noConfusion heq
    · split at h
      · exact Except.noConfusion h
      · exact Except.noConfusion h

/-- C1 counterexample: a strict descriptor with `expectedFrameCount = 1`
evaluated on a batch whose single message belongs to another ECU (zero
retained messages) raises a frame-count error, contradicting the claim that
no frame-count error is raised in strict mode. -/
theorem c1_strict_zero_retained_raises_frame_error :
    c1Cmd.call c1Batch = .error (.frameCountMismatch c1Cmd.str 1 0, c1Batch) := by
  rfl

/-- C1 (amended): for a descriptor with `expectedFrameCount = 1` and zero
retained messages, in lenient mode Evaluate returns a Response with absent
value, emits a frame-count warning followed by the "no acceptable messages"
warning, and raises no error; in strict mode it raises a frame-count error
(and leaves the batch untouched). -/
theorem c1_zero_retained_behavior {α : Type} (cmd : OBDCommand α)
    (batch : List Message) (hf : cmd.frames = some 1)
    (hr : batch.filter cmd.forUs = []) :
    (cmd.strict = false →
      cmd.call batch =
        .ok ({ command := cmd, messages := [], value := none }, batch,
             [.frameCountMismatch cmd.str 1 0, .noAcceptableMessages cmd.str])) ∧
    (cmd.strict = true →
      cmd.call batch = .error (.frameCountMismatch cmd.str 1 0, batch)) := by
  constructor
  · intro hst
    unfold OBDCommand.call
    rw [hf, constrainBatch_no_retained cmd batch hr]
    dsimp only
    rw [hr]
    simp [hst]
  · intro hst
    have hne : 1 ≠ (batch.filter cmd.forUs).length := by
      rw [hr]
      simp
    have := call_strict_frame_error cmd batch 1 hst hf hne
    rw [this, hr]
    rfl

/-- C1 witness. -/
theorem c1_zero_retained_behavior_witness :
    (sampleCmd.strict = false →
      sampleCmd.call c1Batch =
        .ok ({ command := sampleCmd, messages := [], value := none }, c1Batch,
             [.frameCountMismatch sampleCmd.str 1 0,
              .noAcceptableMessages sampleCmd.str])) ∧
    (sampleCmd.strict = true →
      sampleCmd.call c1Batch =
        .error (.frameCountMismatch sampleCmd.str 1 0, c1Batch)) :=
  c1_zero_retained_behavior sampleCmd c1Batch rfl rfl

/-- C2: for a descriptor with `expectedByteCount = N > 0` in lenient mode,
Evaluate succeeds and every retained message's data is `normData N` of its
original data — truncated from the right (first N bytes kept) when longer,
right-padded with zero bytes when shorter, unchanged when exactly N — so
every retained message's data length equals exactly N. -/
theorem c2_lenient_normalizes_data {α : Type} (cmd : OBDCommand α)
    (batch : List Message) (hs : cmd.strict = false) (hb : 0 < cmd.bytes) :
    ∃ r s ns, cmd.call batch = .ok (r, s, ns) ∧
      r.messages = (batch.filter cmd.forUs).map
        (fun m => { m with data := normData cmd.bytes m.data }) ∧
      ∀ m ∈ r.messages, m.data.length = cmd.bytes := by
  obtain ⟨ns1, hcall⟩ := call_lenient cmd batch hs
  refine ⟨_, _, _, hcall, ?_, ?_⟩
  · dsimp only
    apply List.map_congr_left
    intro m hm
    have hfu : cmd.forUs m = true := (List.mem_filter.mp hm).2
    unfold OBDCommand.normMsg
    rw [if_pos hfu, if_neg (Nat.pos_iff_ne_zero.mp hb)]
  · dsimp only
    intro m hm
    obtain ⟨m0, hm0, hmeq⟩ := List.mem_map.mp hm
    have hfu : cmd.forUs m0 = true := (List.mem_filter.mp hm0).2
    rw [← hmeq]
    unfold OBDCommand.normMsg
    rw [if_pos hfu, if_neg (Nat.pos_iff_ne_zero.mp hb)]
    exact normData_length cmd.bytes m0.data

/-- C2 witness: `sampleCmd` (4 expected bytes, lenient) on one retained
2-byte message. -/
theorem c2_lenient_normalizes_data_witness :
    ∃ r s ns, sampleCmd.call [⟨1, [65, 12]⟩] = .ok (r, s, ns) ∧
      r.messages = (([⟨1, [65, 12]⟩] : List Message).filter sampleCmd.forUs).map
        (fun m => { m with data := normData sampleCmd.bytes m.data }) ∧
      ∀ m ∈ r.messages, m.data.length = sampleCmd.bytes :=
  c2_lenient_normalizes_data sampleCmd [⟨1, [65, 12]⟩] rfl (by decide)

/-- C3 counterexample: a strict descriptor with `expectedByteCount = 4` and
`expectedFrameCount = 3`, given one retained message of 2 data bytes, fails
with the frame-count error rather than the PayloadTooShort error the claim
promises, because the frame-count check runs first. -/
theorem c3_frame_check_preempts_payload_error :
    c3Cmd.call c3Batch = .error (.frameCountMismatch c3Cmd.str 3 1, c3Batch) ∧
    OBDError.frameCountMismatch c3Cmd.str 3 1 ≠
      OBDError.payloadTooShort c3Cmd.str 2 4 ∧
    OBDError.frameCountMismatch c3Cmd.str 3 1 ≠
      OBDError.payloadTooLong c3Cmd.str 2 4 := by
  refine ⟨rfl, ?_, ?_⟩ <;> simp

/-- C3 (amended): for a strict descriptor with `expectedByteCount = N > 0`,
provided the frame-count check passes (absent or equal to the retained
count), if any retained message's data length differs from N then Evaluate
fails — no Response — with the payload error of the first offending retained
message: PayloadTooLong when it is longer, PayloadTooShort when shorter,
carrying the descriptor identity and the actual/expected lengths; the batch
is left unmutated. -/
theorem c3_strict_payload_mismatch_fails {α : Type} (cmd : OBDCommand α)
    (batch : List Message) (hs : cmd.strict = true) (hb : 0 < cmd.bytes)
    (hf : cmd.frames = none ∨ cmd.frames = some (batch.filter cmd.forUs).length)
    (hex : ∃ m ∈ batch.filter cmd.forUs, m.data.length ≠ cmd.bytes) :
    ∃ m0, (batch.filter cmd.forUs).find? (fun m => m.data.length != cmd.bytes) = some m0 ∧
      m0.data.length ≠ cmd.bytes ∧
      cmd.call batch =
        .error ((if cmd.bytes < m0.data.length then
                   .payloadTooLong cmd.str m0.data.length cmd.bytes
                 else
                   .payloadTooShort cmd.str m0.data.length cmd.bytes), batch) := by
  have hsome : ((batch.filter cmd.forUs).find?
      (fun m => m.data.length != cmd.bytes)).isSome = true := by
    rw [List.find?_isSome]
    obtain ⟨m, hm, hne⟩ := hex
    exact ⟨m, hm, by simpa using hne⟩
  obtain ⟨m0, hm0⟩ := Option.isSome_iff_exists.mp hsome
  refine ⟨m0, hm0, by simpa using List.find?_some hm0, ?_⟩
  rw [call_frame_pass cmd batch hf,
      constrainBatch_strict_offender cmd hs hb batch m0 hm0]

/-- C3 witness: strict descriptor, 4 expected bytes, no frame expectation,
one retained 2-byte message. -/
theorem c3_strict_payload_mismatch_fails_witness :
    ∃ m0, (c3Batch.filter c3wCmd.forUs).find?
        (fun m => m.data.length != c3wCmd.bytes) = some m0 ∧
      m0.data.length ≠ c3wCmd.bytes ∧
      c3wCmd.call c3Batch =
        .error ((if c3wCmd.bytes < m0.data.length then
                   .payloadTooLong c3wCmd.str m0.data.length c3wCmd.bytes
                 else
                   .payloadTooShort c3wCmd.str m0.data.length c3wCmd.bytes),
                c3Batch) :=
  c3_strict_payload_mismatch_fails c3wCmd c3Batch rfl (by decide)
    (Or.inl rfl) (by decide)

/-- C4 counterexample: a lenient descriptor with `expectedFrameCount = 1`
whose decode function always returns 42, evaluated on a batch with zero
retained messages (a frame-count mismatch), emits the warning and proceeds
but does NOT invoke the decode function: the Response value is absent, not
`some 42`, contradicting "still invoking the decode function". -/
theorem c4_lenient_mismatch_empty_skips_decode :
    c4Cmd.call c4Batch =
      .ok ({ command := c4Cmd, messages := [], value := none }, c4Batch,
           [.frameCountMismatch c4Cmd.str 1 0, .noAcceptableMessages c4Cmd.str]) ∧
    (none : Option Nat) ≠ some (c4Cmd.decode []) := by
  exact ⟨rfl, by simp⟩

/-- C4 (amended): for a descriptor with `expectedFrameCount = F` and a
retained count different from F, strict mode fails with a frame-count error
carrying the descriptor identity and both counts; lenient mode emits a
warning with the same information and proceeds, invoking the decode function
on the retained (normalized) messages exactly when that list is nonempty,
and leaving the value absent when it is empty. -/
theorem c4_frame_count_check {α : Type} (cmd : OBDCommand α)
    (batch : List Message) (F : Nat) (hf : cmd.frames = some F)
    (hne : F ≠ (batch.filter cmd.forUs).length) :
    (cmd.strict = true →
      cmd.call batch =
        .error (.frameCountMismatch cmd.str F (batch.filter cmd.forUs).length,
                batch)) ∧
    (cmd.strict = false →
      ∃ r s ns, cmd.call batch = .ok (r, s, ns) ∧
        Notice.frameCountMismatch cmd.str F (batch.filter cmd.forUs).length ∈ ns ∧
        (r.messages ≠ [] → r.value = some (cmd.decode r.messages)) ∧
        (r.messages = [] → r.value = none)) := by
  constructor
  · intro hst
    exact call_strict_frame_error cmd batch F hst hf hne
  · intro hst
    obtain ⟨ns1, hcall⟩ := call_lenient cmd batch hst
    refine ⟨_, _, _, hcall, ?_, ?_, ?_⟩
    · rw [hf]
      dsimp only
      rw [if_pos hne]
      simp
    · dsimp only
      intro hnonempty
      have hfil : ¬ (batch.filter cmd.forUs) = [] := by
        intro hh
        rw [hh] at hnonempty
        simp at hnonempty
      rw [if_neg (by simpa [List.isEmpty_eq_true] using hfil)]
    · dsimp only
      intro hempty
      rw [List.map_eq_nil_iff] at hempty
      rw [if_pos (by simpa [List.isEmpty_eq_true] using hempty)]

/-- C4 witness: lenient descriptor expecting 2 frames, one retained 4-byte
message (mismatch 2 vs 1). -/
theorem c4_frame_count_check_witness :
    (c4wCmd.strict = true →
      c4wCmd.call c4wBatch =
        .error (.frameCountMismatch c4wCmd.str 2
                  (c4wBatch.filter c4wCmd.forUs).length, c4wBatch)) ∧
    (c4wCmd.strict = false →
      ∃ r s ns, c4wCmd.call c4wBatch = .ok (r, s, ns) ∧
        Notice.frameCountMismatch c4wCmd.str 2
          (c4wBatch.filter c4wCmd.forUs).length ∈ ns ∧
        (r.messages ≠ [] → r.value = some (c4wCmd.decode r.messages)) ∧
        (r.messages = [] → r.value = none)) :=
  c4_frame_count_check c4wCmd c4wBatch 2 rfl (by decide)

/-- C5: a message is retained by Evaluate's attribution filter iff the
bitwise AND of the descriptor's targetECUs mask and the message's ecu tag is
positive; the retained messages form a sublist (same relative order) of the
input; and with no frame expectation and no byte constraint active Evaluate
never errors and the Response holds exactly the retained messages. -/
theorem c5_attribution_filter {α : Type} (cmd : OBDCommand α)
    (batch : List Message) :
    (∀ m, m ∈ batch.filter cmd.forUs ↔ m ∈ batch ∧ cmd.ecu &&& m.ecu > 0) ∧
    (batch.filter cmd.forUs).Sublist batch ∧
    (cmd.frames = none → cmd.bytes = 0 →
      ∃ ns, cmd.call batch =
        .ok ({ command := cmd, messages := batch.filter cmd.forUs,
               value := if (batch.filter cmd.forUs).isEmpty then none
                        else some (cmd.decode (batch.filter cmd.forUs)) },
             batch, ns)) := by
  refine ⟨?_, List.filter_sublist batch, ?_⟩
  · intro m
    rw [List.mem_filter, OBDCommand.forUs]
    simp
  · intro hfr hb
    rw [call_frame_pass cmd batch (Or.inl hfr),
        constrainBatch_bytes_zero cmd batch hb]
    dsimp only
    by_cases hemp : (batch.filter cmd.forUs).isEmpty
    · exact ⟨_, by rw [if_pos hemp, if_pos hemp]⟩
    · exact ⟨_, by rw [if_neg hemp, if_neg hemp]⟩

/-- C5 witness: `c5wCmd` (mask 3) on a batch with ECUs 1, 4, 2 retains
exactly the first and third message, in order, and evaluation succeeds. -/
theorem c5_attribution_filter_witness :
    (∀ m, m ∈ c5wBatch.filter c5wCmd.forUs ↔
        m ∈ c5wBatch ∧ c5wCmd.ecu &&& m.ecu > 0) ∧
    (c5wBatch.filter c5wCmd.forUs).Sublist c5wBatch ∧
    (c5wCmd.frames = none → c5wCmd.bytes = 0 →
      ∃ ns, c5wCmd.call c5wBatch =
        .ok ({ command := c5wCmd, messages := c5wBatch.filter c5wCmd.forUs,
               value := if (c5wBatch.filter c5wCmd.forUs).isEmpty then none
                        else some (c5wCmd.decode (c5wBatch.filter c5wCmd.forUs)) },
             c5wBatch, ns)) :=
  c5_attribution_filter c5wCmd c5wBatch

/-- C6: Mode and ParameterId derive purely from the command string: when it
is valid hex text of length at least 2, Mode is the base-16 value of the
first two characters; when valid hex of length greater than 2, ParameterId
is the base-16 value of the rest; otherwise the accessor yields none. In
particular "0100" gives Mode 0x01 / ParameterId 0x00, "01" gives Mode 0x01 /
absent ParameterId, "ZZ" gives both absent. -/
theorem c6_mode_pid_derivation {α : Type} (cmd : OBDCommand α) :
    (2 ≤ cmd.command.length ∧ isHex cmd.command = true →
      cmd.mode = some (hexVal (cmd.command.take 2))) ∧
    (2 < cmd.command.length ∧ isHex cmd.command = true →
      cmd.pid = some (hexVal (cmd.command.drop 2))) ∧
    (¬(2 ≤ cmd.command.length ∧ isHex cmd.command = true) → cmd.mode = none) ∧
    (¬(2 < cmd.command.length ∧ isHex cmd.command = true) → cmd.pid = none) ∧
    (cmd.command = ['0', '1', '0', '0'] →
      cmd.mode = some 0x01 ∧ cmd.pid = some 0x00) ∧
    (cmd.command = ['0', '1'] → cmd.mode = some 0x01 ∧ cmd.pid = none) ∧
    (cmd.command = ['Z', 'Z'] → cmd.mode = none ∧ cmd.pid = none) := by
  refine ⟨fun h => ?_, fun h => ?_, fun h => ?_, fun h => ?_,
          fun h => ?_, fun h => ?_, fun h => ?_⟩
  · rw [OBDCommand.mode, if_pos h]
  · rw [OBDCommand.pid, if_pos h]
  · rw [OBDCommand.mode, if_neg h]
  · rw [OBDCommand.pid, if_neg h]
  · constructor
    · rw [OBDCommand.mode, h]
      decide
    · rw [OBDCommand.pid, h]
      decide
  · constructor
    · rw [OBDCommand.mode, h]
      decide
    · rw [OBDCommand.pid, h]
      decide
  · constructor
    · rw [OBDCommand.mode, h]
      decide
    · rw [OBDCommand.pid, h]
      decide

/-- C6 witness: the sample descriptor's command "010C" yields Mode 0x01 and
ParameterId 0x0C. -/
theorem c6_mode_pid_derivation_witness :
    2 ≤ sampleCmd.command.length ∧ isHex sampleCmd.command = true ∧
    sampleCmd.mode = some (hexVal (sampleCmd.command.take 2)) ∧
    sampleCmd.mode = some 1 ∧ sampleCmd.pid = some 12 :=
  ⟨by decide, by decide,
   (c6_mode_pid_derivation sampleCmd).1 ⟨by decide, by decide⟩,
   by decide, by decide⟩

/-- C7: descriptor equality holds iff the compared value is a descriptor
with an equal command string (all other fields are ignored); comparison with
a non-descriptor value is false; the hash is a function of the command
string alone, so equal command strings hash identically and different
command strings never compare equal. -/
theorem c7_identity_semantics {α : Type} (a b : OBDCommand α) (t : Nat) :
    (a.eqPy (.obdCommand b) = true ↔ a.command = b.command) ∧
    a.eqPy (.other t) = false ∧
    (a.command = b.command → a.hashPy = b.hashPy) ∧
    (a.command ≠ b.command → a.eqPy (.obdCommand b) = false) := by
  refine ⟨?_, rfl, ?_, ?_⟩
  · rw [OBDCommand.eqPy]
    exact beq_iff_eq
  · intro h
    rw [OBDCommand.hashPy, OBDCommand.hashPy, h]
  · intro h
    rw [OBDCommand.eqPy]
    exact beq_eq_false_iff_ne.mpr h

/-- C7 witness: `sampleCmd` and `c7Other` share the command string "010C"
but differ in every other field: they compare equal and hash identically;
comparison against a non-descriptor value yields false. -/
theorem c7_identity_semantics_witness :
    (sampleCmd.eqPy (.obdCommand c7Other) = true ↔
      sampleCmd.command = c7Other.command) ∧
    sampleCmd.eqPy (.other 5) = false ∧
    (sampleCmd.command = c7Other.command →
      sampleCmd.hashPy = c7Other.hashPy) ∧
    (sampleCmd.command ≠ c7Other.command →
      sampleCmd.eqPy (.obdCommand c7Other) = false) :=
  c7_identity_semantics sampleCmd c7Other 5

/-- C8: with `expectedByteCount = 0`, Evaluate never changes the caller's
batch — neither on success nor on a strict frame-count failure — so no
message's data length is ever mutated, in either mode; on success the
Response holds exactly the retained messages, unchanged. -/
theorem c8_zero_bytes_never_mutates {α : Type} (cmd : OBDCommand α)
    (batch : List Message) (hb : cmd.bytes = 0) :
    (∀ e s, cmd.call batch = .error (e, s) → s = batch) ∧
    (∀ r s ns, cmd.call batch = .ok (r, s, ns) →
      s = batch ∧ r.messages = batch.filter cmd.forUs) := by
  constructor
  · intro e s h
    exact (call_error_store cmd batch e s h).1
  · intro r s ns h
    unfold OBDCommand.call at h
    dsimp only at h
    rw [constrainBatch_bytes_zero cmd batch hb] at h
    split at h
    · exact Except.noConfusion h
    · dsimp only at h
      split at h
      · simp at h
        exact ⟨h.2.1.symm, by rw [← h.1]⟩
      · simp at h
        exact ⟨h.2.1.symm, by rw [← h.1]⟩

/-- C8 witness: `c5wCmd` (byte count 0) run strictly and leniently on the
three-message batch leaves it untouched. -/
theorem c8_zero_bytes_never_mutates_witness :
    (∀ e s, c5wCmd.call c5wBatch = .error (e, s) → s = c5wBatch) ∧
    (∀ r s ns, c5wCmd.call c5wBatch = .ok (r, s, ns) →
      s = c5wBatch ∧ r.messages = c5wBatch.filter c5wCmd.forUs) :=
  c8_zero_bytes_never_mutates c5wCmd c5wBatch rfl

/-- C9: Clone returns a descriptor equal to the original in every field
(name, description, commandString, expectedByteCount, decode function
reference, targetECUs, fastFlag, expectedFrameCount, strictFlag), and
evaluating the clone on any batch gives the very same result — in
particular a Response equal in value — as evaluating the original. -/
theorem c9_clone_identical {α : Type} (cmd : OBDCommand α) :
    cmd.clone = cmd ∧
    cmd.clone.name = cmd.name ∧
    cmd.clone.desc = cmd.desc ∧
    cmd.clone.command = cmd.command ∧
    cmd.clone.bytes = cmd.bytes ∧
    cmd.clone.decode = cmd.decode ∧
    cmd.clone.ecu = cmd.ecu ∧
    cmd.clone.fast = cmd.fast ∧
    cmd.clone.frames = cmd.frames ∧
    cmd.clone.strict = cmd.strict ∧
    ∀ batch, cmd.clone.call batch = cmd.call batch :=
  ⟨rfl, rfl, rfl, rfl, rfl, rfl, rfl, rfl, rfl, rfl, fun _ => rfl⟩

/-- C10: whenever Evaluate aborts with a validation error, the caller's
batch is exactly as it was passed in — no message was truncated or padded —
and the abort can only happen in strict mode. -/
theorem c10_abort_leaves_batch_unchanged {α : Type} (cmd : OBDCommand α)
    (batch : List Message) (e : OBDError) (s : List Message)
    (h : cmd.call batch = .error (e, s)) :
    s = batch ∧ cmd.strict = true :=
  call_error_store cmd batch e s h

/-- C10 witness: a strict 2-byte descriptor aborts with PayloadTooLong on a
3-byte message and returns the batch unchanged. -/
theorem c10_abort_leaves_batch_unchanged_witness :
    c10Cmd.call c10Batch =
      .error (.payloadTooLong c10Cmd.str 3 2, c10Batch) ∧
    c10Batch = c10Batch ∧ c10Cmd.strict = true :=
  ⟨rfl, (c10_abort_leaves_batch_unchanged c10Cmd c10Batch
    (.payloadTooLong c10Cmd.str 3 2) c10Batch rfl).1,
   (c10_abort_leaves_batch_unchanged c10Cmd c10Batch
    (.payloadTooLong c10Cmd.str 3 2) c10Batch rfl).2⟩
